import Mathlib

/-!
Verification of the FixedwidthConverter server core: the fixed-width record
parser (`parseLine`, `parseFileContent` of the shared parser module and the
inline copy in `routes.ts`), and the in-memory storage layer (`MemStorage`)
with its barcode lookup, scan-event, session and price-override operations.

JavaScript strings are modelled as lists of characters (`JsStr`), JavaScript
numbers as exact rationals extended with signed infinities and NaN (`NumV`),
and the dynamically typed field values (`number | string`) as the sum type
`Value`.  JavaScript `Map`s are modelled as insertion-ordered association
lists of key/value pairs; `randomUUID` is modelled as a fresh-id counter.
-/

set_option maxRecDepth 4096

/-- A JavaScript string, as its sequence of characters. -/
abbrev JsStr := List Char

/-- Convert a Lean string literal to the JavaScript string model. -/
def js (s : String) : JsStr := s.toList

/-- JavaScript whitespace (the ASCII part), as used by `String.prototype.trim`. -/
def jsWs (c : Char) : Bool :=
  c = ' ' || c = '\t' || c = '\n' || c = '\r' || c = '\x0b' || c = '\x0c'

/-- `String.prototype.trim`: strip leading and trailing whitespace. -/
def jsTrim (l : JsStr) : JsStr :=
  ((l.dropWhile jsWs).reverse.dropWhile jsWs).reverse

/-- `String.prototype.slice(start, end)` for non-negative arguments:
both indices are clamped to the string length. -/
def jsSlice (l : JsStr) (s e : Nat) : JsStr := (l.take e).drop s

/-- A JavaScript number: an exact rational, a signed infinity, or NaN.
(The binary64 rounding of the reference implementation is idealised to
exact rational arithmetic.) -/
inductive NumV where
  | fin (q : ℚ)
  | inf (neg : Bool)
  | nan
deriving DecidableEq

/-- `isNaN` on the number model. -/
def jsIsNaN : NumV → Bool
  | NumV.nan => true
  | _ => false

/-- A dynamically typed JavaScript value as stored in a parsed record field:
either a number or a string. -/
inductive Value where
  | num (n : NumV)
  | str (s : JsStr)
deriving DecidableEq

/-- JavaScript truthiness of a number: `0` and `NaN` are falsy. -/
def NumV.truthy : NumV → Bool
  | NumV.fin q => if q = 0 then false else true
  | NumV.inf _ => true
  | NumV.nan => false

/-- JavaScript truthiness of a `Value`: the empty string, `0` and `NaN` are falsy. -/
def Value.truthy : Value → Bool
  | Value.num n => n.truthy
  | Value.str s => !s.isEmpty

/-- `x || d` on an optional value: `null` and falsy values fall back to the default. -/
def jsOr (o : Option Value) (d : Value) : Value :=
  match o with
  | none => d
  | some v => if v.truthy then v else d

/-- Does the second list start with the first one? -/
def startsList : JsStr → JsStr → Bool
  | [], _ => true
  | _ :: _, [] => false
  | p :: ps, c :: cs => p = c && startsList ps cs

/-- Substring test (`String.prototype.includes`). -/
def containsStr (pat : JsStr) : JsStr → Bool
  | [] => startsList pat []
  | c :: rest => startsList pat (c :: rest) || containsStr pat rest

/-- The numeric value of a list of decimal digits. -/
def digitsToNat (l : JsStr) : Nat := l.foldl (fun a c => 10 * a + (c.toNat - '0'.toNat)) 0

/-- The exponent part of a `parseFloat` input: sign and decimal magnitude of an
`e`/`E` exponent; an incomplete exponent (no digits) has magnitude 0 and so
contributes a factor of 1, matching `parseFloat`'s longest-valid-prefix rule. -/
def expParts (t : JsStr) : Bool × Nat :=
  match t with
  | '+' :: u => (false, digitsToNat (u.takeWhile Char.isDigit))
  | '-' :: u => (true, digitsToNat (u.takeWhile Char.isDigit))
  | u => (false, digitsToNat (u.takeWhile Char.isDigit))

/-- Parse the longest unsigned decimal-literal prefix (`digits [. digits] [exponent]`);
`none` when no digit is present before or after the decimal point.  The value
is assembled with `mkRat` over natural-number arithmetic. -/
def parseDec (l : JsStr) : Option ℚ :=
  let d1 := l.takeWhile Char.isDigit
  let r1 := l.dropWhile Char.isDigit
  let d2 := match r1 with
            | '.' :: t => t.takeWhile Char.isDigit
            | _ => []
  let r2 := match r1 with
            | '.' :: t => t.dropWhile Char.isDigit
            | _ => r1
  if d1.isEmpty && d2.isEmpty then none
  else
    let p : Nat := 10 ^ d2.length
    let m : Nat := digitsToNat d1 * p + digitsToNat d2
    let ex : Bool × Nat := match r2 with
                  | 'e' :: t => expParts t
                  | 'E' :: t => expParts t
                  | _ => (false, 0)
    some (if ex.1 then mkRat m (p * 10 ^ ex.2) else mkRat (m * 10 ^ ex.2) p)

/-- `parseFloat`: skip leading whitespace, read an optional sign, then either
the literal `Infinity` or the longest decimal-literal prefix; `NaN` otherwise. -/
def jsParseFloat (l : JsStr) : NumV :=
  let l1 := l.dropWhile jsWs
  let neg : Bool := match l1 with
                    | '-' :: _ => true
                    | _ => false
  let l2 : JsStr := match l1 with
                    | '+' :: t => t
                    | '-' :: t => t
                    | t => t
  if startsList (js "Infinity") l2 then NumV.inf neg
  else
    match parseDec l2 with
    | none => NumV.nan
    | some q => NumV.fin (if neg then -q else q)

/-- `value.replace(/[$,]/g, '')`: delete every dollar sign and comma. -/
def stripCurrency (l : JsStr) : JsStr := l.filter (fun c => !(c = '$' || c = ','))

/-- `MMDDYYYY` reformatted to `YYYY-MM-DD`:
`value.slice(4) + "-" + value.slice(0, 2) + "-" + value.slice(2, 4)`. -/
def formatDate8 (v : JsStr) : JsStr :=
  v.drop 4 ++ js "-" ++ v.take 2 ++ js "-" ++ jsSlice v 2 4

/-- The `FIELD_SPECS` table: field name, start offset (inclusive), end offset
(exclusive). -/
def FIELD_SPECS : List (JsStr × Nat × Nat) :=
  [ (js "LIQUOR CODE", 0, 5),
    (js "BRAND NAME", 5, 37),
    (js "ADA NUMBER", 37, 40),
    (js "ADA NAME", 40, 65),
    (js "VENDOR NAME", 65, 90),
    (js "PROOF", 110, 115),
    (js "BOTTLE SIZE", 115, 122),
    (js "PACK SIZE", 122, 125),
    (js "ON PREMISE PRICE", 125, 136),
    (js "OFF PREMISE PRICE", 136, 147),
    (js "SHELF PRICE", 147, 158),
    (js "UPC CODE 1", 158, 172),
    (js "UPC CODE 2", 172, 186),
    (js "EFFECTIVE DATE", 186, 194) ]

/-- The row key of a field: `name.toLowerCase().replace(/ /g, "")`. -/
def rowKey (n : JsStr) : JsStr := (n.map Char.toLower).filter (fun c => !(c = ' '))

/-- The value stored into the row for one field of `parseLine`: slice and trim,
then apply the price conversion (fields whose name contains `PRICE`) or the
date reformatting (`EFFECTIVE DATE` of trimmed length 8). -/
def fieldValue (name : JsStr) (s e : Nat) (line : JsStr) : Value :=
  let v := jsTrim (jsSlice line s e)
  if containsStr (js "PRICE") name then
    let n := jsParseFloat (stripCurrency v)
    if jsIsNaN n then Value.str v else Value.num n
  else if name = js "EFFECTIVE DATE" ∧ v.length = 8 then
    Value.str (formatDate8 v)
  else Value.str v

/-- The `row` object built by `parseLine`'s loop over `FIELD_SPECS`. -/
def buildRow (line : JsStr) : List (JsStr × Value) :=
  FIELD_SPECS.map (fun f => (rowKey f.1, fieldValue f.1 f.2.1 f.2.2 line))

/-- Property access `row[key]` on the built row. -/
def rowGet (row : List (JsStr × Value)) (key : JsStr) : Option Value :=
  (row.find? (fun p => p.1 == key)).map Prod.snd

/-- The record shape returned by `parseLine`: all 14 fields, each a
dynamically typed value. -/
structure ParsedRecord where
  liquorCode : Value
  brandName : Value
  adaNumber : Value
  adaName : Value
  vendorName : Value
  proof : Value
  bottleSize : Value
  packSize : Value
  onPremisePrice : Value
  offPremisePrice : Value
  shelfPrice : Value
  upcCode1 : Value
  upcCode2 : Value
  effectiveDate : Value
deriving DecidableEq

/-- The empty JavaScript string as a `Value`. -/
def emptyStr : Value := Value.str []

/-- `parseLine` of the shared parser module (`part_000`): every field defaults
to the empty string via `row.x || ""`. -/
def parseLine (line : JsStr) : ParsedRecord :=
  let row := buildRow line
  { liquorCode := jsOr (rowGet row (js "liquorcode")) emptyStr
    brandName := jsOr (rowGet row (js "brandname")) emptyStr
    adaNumber := jsOr (rowGet row (js "adanumber")) emptyStr
    adaName := jsOr (rowGet row (js "adaname")) emptyStr
    vendorName := jsOr (rowGet row (js "vendorname")) emptyStr
    proof := jsOr (rowGet row (js "proof")) emptyStr
    bottleSize := jsOr (rowGet row (js "bottlesize")) emptyStr
    packSize := jsOr (rowGet row (js "packsize")) emptyStr
    onPremisePrice := jsOr (rowGet row (js "onpremiseprice")) emptyStr
    offPremisePrice := jsOr (rowGet row (js "offpremiseprice")) emptyStr
    shelfPrice := jsOr (rowGet row (js "shelfprice")) emptyStr
    upcCode1 := jsOr (rowGet row (js "upccode1")) emptyStr
    upcCode2 := jsOr (rowGet row (js "upccode2")) emptyStr
    effectiveDate := jsOr (rowGet row (js "effectivedate")) emptyStr }

/-- The zero number value, the default `row.x || 0` of the `routes.ts` copy. -/
def zeroNum : Value := Value.num (NumV.fin 0)

/-- `parseLine` as duplicated inline in `routes.ts`: identical to the module
version except that the three price fields default to the number `0`. -/
def parseLineRoutes (line : JsStr) : ParsedRecord :=
  let row := buildRow line
  { liquorCode := jsOr (rowGet row (js "liquorcode")) emptyStr
    brandName := jsOr (rowGet row (js "brandname")) emptyStr
    adaNumber := jsOr (rowGet row (js "adanumber")) emptyStr
    adaName := jsOr (rowGet row (js "adaname")) emptyStr
    vendorName := jsOr (rowGet row (js "vendorname")) emptyStr
    proof := jsOr (rowGet row (js "proof")) emptyStr
    bottleSize := jsOr (rowGet row (js "bottlesize")) emptyStr
    packSize := jsOr (rowGet row (js "packsize")) emptyStr
    onPremisePrice := jsOr (rowGet row (js "onpremiseprice")) zeroNum
    offPremisePrice := jsOr (rowGet row (js "offpremiseprice")) zeroNum
    shelfPrice := jsOr (rowGet row (js "shelfprice")) zeroNum
    upcCode1 := jsOr (rowGet row (js "upccode1")) emptyStr
    upcCode2 := jsOr (rowGet row (js "upccode2")) emptyStr
    effectiveDate := jsOr (rowGet row (js "effectivedate")) emptyStr }

/-- The trimmed character slice a field is extracted from. -/
def rawField (line : JsStr) (s e : Nat) : JsStr := jsTrim (jsSlice line s e)

/-- The spec's description of a stored price field value (amended to the code's
behaviour): strip `$` and `,`, `parseFloat`; a non-NaN result is stored as a
number unless it is `0`, which the `|| ""` default replaces by the empty
string; a NaN parse retains the trimmed string. -/
def specPriceValue (v : JsStr) : Value :=
  match jsParseFloat (stripCurrency v) with
  | NumV.nan => Value.str v
  | n => if n = NumV.fin 0 then Value.str [] else Value.num n

/-- The stored price field value of the `routes.ts` copy: a non-NaN parse is
stored as the number (a parsed `0` coincides with the `|| 0` default); a NaN
parse retains the trimmed string unless it is empty, in which case the
default `0` applies. -/
def specPriceValueRoutes (v : JsStr) : Value :=
  match jsParseFloat (stripCurrency v) with
  | NumV.nan => if v.isEmpty then Value.num (NumV.fin 0) else Value.str v
  | n => Value.num n

/-- The spec's description of the stored effective date: reformat
`MMDDYYYY` to `YYYY-MM-DD` exactly when the trimmed value has 8 characters. -/
def effectiveDateSpec (v : JsStr) : JsStr :=
  if v.length = 8 then formatDate8 v else v

/-- `x || ""` on a string value is the identity (the empty string falls back to
the empty default). -/
theorem jsOr_some_str (v : JsStr) : jsOr (some (Value.str v)) emptyStr = Value.str v := by
  cases v <;> rfl

/-- The price-field store-and-default pipeline equals `specPriceValue`. -/
theorem priceProj (v : JsStr) :
    jsOr (some (if jsIsNaN (jsParseFloat (stripCurrency v)) then Value.str v
                else Value.num (jsParseFloat (stripCurrency v)))) emptyStr
      = specPriceValue v := by
  rcases hp : jsParseFloat (stripCurrency v) with q | b
  · by_cases hq : q = 0 <;>
      simp [specPriceValue, hp, jsIsNaN, jsOr, Value.truthy, NumV.truthy, hq, emptyStr]
  · simp [specPriceValue, hp, jsIsNaN, jsOr, Value.truthy, NumV.truthy]
  · simp [specPriceValue, hp, jsIsNaN, jsOr_some_str]

/-- The price-field pipeline of the `routes.ts` copy equals `specPriceValueRoutes`. -/
theorem priceProjRoutes (v : JsStr) :
    jsOr (some (if jsIsNaN (jsParseFloat (stripCurrency v)) then Value.str v
                else Value.num (jsParseFloat (stripCurrency v)))) zeroNum
      = specPriceValueRoutes v := by
  rcases hp : jsParseFloat (stripCurrency v) with q | b
  · by_cases hq : q = 0 <;>
      simp [specPriceValueRoutes, hp, jsIsNaN, jsOr, Value.truthy, NumV.truthy, hq, zeroNum]
  · simp [specPriceValueRoutes, hp, jsIsNaN, jsOr, Value.truthy, NumV.truthy]
  · by_cases hv : v.isEmpty <;>
      simp [specPriceValueRoutes, hp, jsIsNaN, jsOr, Value.truthy, hv, zeroNum]

/-- The effective-date store-and-default pipeline equals `effectiveDateSpec`. -/
theorem dateProj (v : JsStr) :
    jsOr (some (if (js "EFFECTIVE DATE") = js "EFFECTIVE DATE" ∧ v.length = 8
                then Value.str (formatDate8 v) else Value.str v)) emptyStr
      = Value.str (effectiveDateSpec v) := by
  unfold effectiveDateSpec
  by_cases h8 : v.length = 8
  · rw [if_pos ⟨rfl, h8⟩, if_pos h8, jsOr_some_str]
  · rw [if_neg (fun hc => h8 hc.2), if_neg h8, jsOr_some_str]

/-- Flattened form of `parseLine`: each field is the per-field coercion applied
to the trimmed slice of its byte range. -/
theorem parseLine_eq (line : JsStr) :
    parseLine line =
      { liquorCode := Value.str (rawField line 0 5)
        brandName := Value.str (rawField line 5 37)
        adaNumber := Value.str (rawField line 37 40)
        adaName := Value.str (rawField line 40 65)
        vendorName := Value.str (rawField line 65 90)
        proof := Value.str (rawField line 110 115)
        bottleSize := Value.str (rawField line 115 122)
        packSize := Value.str (rawField line 122 125)
        onPremisePrice := specPriceValue (rawField line 125 136)
        offPremisePrice := specPriceValue (rawField line 136 147)
        shelfPrice := specPriceValue (rawField line 147 158)
        upcCode1 := Value.str (rawField line 158 172)
        upcCode2 := Value.str (rawField line 172 186)
        effectiveDate := Value.str (effectiveDateSpec (rawField line 186 194)) } := by
  have h : parseLine line = ParsedRecord.mk
      (jsOr (some (Value.str (rawField line 0 5))) emptyStr)
      (jsOr (some (Value.str (rawField line 5 37))) emptyStr)
      (jsOr (some (Value.str (rawField line 37 40))) emptyStr)
      (jsOr (some (Value.str (rawField line 40 65))) emptyStr)
      (jsOr (some (Value.str (rawField line 65 90))) emptyStr)
      (jsOr (some (Value.str (rawField line 110 115))) emptyStr)
      (jsOr (some (Value.str (rawField line 115 122))) emptyStr)
      (jsOr (some (Value.str (rawField line 122 125))) emptyStr)
      (jsOr (some (if jsIsNaN (jsParseFloat (stripCurrency (rawField line 125 136)))
                   then Value.str (rawField line 125 136)
                   else Value.num (jsParseFloat (stripCurrency (rawField line 125 136))))) emptyStr)
      (jsOr (some (if jsIsNaN (jsParseFloat (stripCurrency (rawField line 136 147)))
                   then Value.str (rawField line 136 147)
                   else Value.num (jsParseFloat (stripCurrency (rawField line 136 147))))) emptyStr)
      (jsOr (some (if jsIsNaN (jsParseFloat (stripCurrency (rawField line 147 158)))
                   then Value.str (rawField line 147 158)
                   else Value.num (jsParseFloat (stripCurrency (rawField line 147 158))))) emptyStr)
      (jsOr (some (Value.str (rawField line 158 172))) emptyStr)
      (jsOr (some (Value.str (rawField line 172 186))) emptyStr)
      (jsOr (some (if (js "EFFECTIVE DATE") = js "EFFECTIVE DATE" ∧ (rawField line 186 194).length = 8
                   then Value.str (formatDate8 (rawField line 186 194))
                   else Value.str (rawField line 186 194))) emptyStr) := rfl
  rw [h, dateProj]
  simp only [jsOr_some_str, priceProj]

/-- Flattened form of the `routes.ts` copy of `parseLine`. -/
theorem parseLineRoutes_eq (line : JsStr) :
    parseLineRoutes line =
      { liquorCode := Value.str (rawField line 0 5)
        brandName := Value.str (rawField line 5 37)
        adaNumber := Value.str (rawField line 37 40)
        adaName := Value.str (rawField line 40 65)
        vendorName := Value.str (rawField line 65 90)
        proof := Value.str (rawField line 110 115)
        bottleSize := Value.str (rawField line 115 122)
        packSize := Value.str (rawField line 122 125)
        onPremisePrice := specPriceValueRoutes (rawField line 125 136)
        offPremisePrice := specPriceValueRoutes (rawField line 136 147)
        shelfPrice := specPriceValueRoutes (rawField line 147 158)
        upcCode1 := Value.str (rawField line 158 172)
        upcCode2 := Value.str (rawField line 172 186)
        effectiveDate := Value.str (effectiveDateSpec (rawField line 186 194)) } := by
  have h : parseLineRoutes line = ParsedRecord.mk
      (jsOr (some (Value.str (rawField line 0 5))) emptyStr)
      (jsOr (some (Value.str (rawField line 5 37))) emptyStr)
      (jsOr (some (Value.str (rawField line 37 40))) emptyStr)
      (jsOr (some (Value.str (rawField line 40 65))) emptyStr)
      (jsOr (some (Value.str (rawField line 65 90))) emptyStr)
      (jsOr (some (Value.str (rawField line 110 115))) emptyStr)
      (jsOr (some (Value.str (rawField line 115 122))) emptyStr)
      (jsOr (some (Value.str (rawField line 122 125))) emptyStr)
      (jsOr (some (if jsIsNaN (jsParseFloat (stripCurrency (rawField line 125 136)))
                   then Value.str (rawField line 125 136)
                   else Value.num (jsParseFloat (stripCurrency (rawField line 125 136))))) zeroNum)
      (jsOr (some (if jsIsNaN (jsParseFloat (stripCurrency (rawField line 136 147)))
                   then Value.str (rawField line 136 147)
                   else Value.num (jsParseFloat (stripCurrency (rawField line 136 147))))) zeroNum)
      (jsOr (some (if jsIsNaN (jsParseFloat (stripCurrency (rawField line 147 158)))
                   then Value.str (rawField line 147 158)
                   else Value.num (jsParseFloat (stripCurrency (rawField line 147 158))))) zeroNum)
      (jsOr (some (Value.str (rawField line 158 172))) emptyStr)
      (jsOr (some (Value.str (rawField line 172 186))) emptyStr)
      (jsOr (some (if (js "EFFECTIVE DATE") = js "EFFECTIVE DATE" ∧ (rawField line 186 194).length = 8
                   then Value.str (formatDate8 (rawField line 186 194))
                   else Value.str (rawField line 186 194))) emptyStr) := rfl
  rw [h, dateProj]
  simp only [jsOr_some_str, priceProjRoutes]

/-- The record returned for a wholly absent line: all 14 fields are the empty
string. -/
def allEmptyRecord : ParsedRecord :=
  { liquorCode := emptyStr, brandName := emptyStr, adaNumber := emptyStr
    adaName := emptyStr, vendorName := emptyStr, proof := emptyStr
    bottleSize := emptyStr, packSize := emptyStr, onPremisePrice := emptyStr
    offPremisePrice := emptyStr, shelfPrice := emptyStr, upcCode1 := emptyStr
    upcCode2 := emptyStr, effectiveDate := emptyStr }

/-- Claim C2 (amended): for every input line, including the empty string and
lines shorter than 194 characters, `parseLine` terminates (it is a total
function) and returns a record containing all 14 fields, each derived from the
trimmed available substring of its byte range; a byte range lying wholly
outside the line yields the empty string, and every field of the empty line is
the empty string — except that the `routes.ts` copy of `parseLine` defaults
the three price fields to the number `0` instead of the empty string. -/
theorem C2_parse_never_raises (line : JsStr) :
    parseLine line =
      { liquorCode := Value.str (rawField line 0 5)
        brandName := Value.str (rawField line 5 37)
        adaNumber := Value.str (rawField line 37 40)
        adaName := Value.str (rawField line 40 65)
        vendorName := Value.str (rawField line 65 90)
        proof := Value.str (rawField line 110 115)
        bottleSize := Value.str (rawField line 115 122)
        packSize := Value.str (rawField line 122 125)
        onPremisePrice := specPriceValue (rawField line 125 136)
        offPremisePrice := specPriceValue (rawField line 136 147)
        shelfPrice := specPriceValue (rawField line 147 158)
        upcCode1 := Value.str (rawField line 158 172)
        upcCode2 := Value.str (rawField line 172 186)
        effectiveDate := Value.str (effectiveDateSpec (rawField line 186 194)) } ∧
    parseLineRoutes line =
      { liquorCode := Value.str (rawField line 0 5)
        brandName := Value.str (rawField line 5 37)
        adaNumber := Value.str (rawField line 37 40)
        adaName := Value.str (rawField line 40 65)
        vendorName := Value.str (rawField line 65 90)
        proof := Value.str (rawField line 110 115)
        bottleSize := Value.str (rawField line 115 122)
        packSize := Value.str (rawField line 122 125)
        onPremisePrice := specPriceValueRoutes (rawField line 125 136)
        offPremisePrice := specPriceValueRoutes (rawField line 136 147)
        shelfPrice := specPriceValueRoutes (rawField line 147 158)
        upcCode1 := Value.str (rawField line 158 172)
        upcCode2 := Value.str (rawField line 172 186)
        effectiveDate := Value.str (effectiveDateSpec (rawField line 186 194)) } ∧
    (∀ s e : Nat, line.length ≤ s → rawField line s e = []) ∧
    parseLine [] = allEmptyRecord := by
  refine ⟨parseLine_eq line, parseLineRoutes_eq line, ?_, by decide⟩
  intro s e h
  have ht : (line.take e).length ≤ s := by
    rw [List.length_take]
    exact le_trans (min_le_right _ _) h
  unfold rawField jsSlice
  rw [List.drop_eq_nil_of_le ht]
  rfl

/-- Claim C2 counterexample: on the empty line the `routes.ts` copy of
`parseLine` stores the number `0` in `shelfPrice`, not the empty string the
claim requires for an absent field. -/
theorem C2_counterexample :
    (parseLineRoutes (js "")).shelfPrice = Value.num (NumV.fin 0) ∧
    (parseLine (js "")).shelfPrice = Value.str [] ∧
    Value.num (NumV.fin 0) ≠ Value.str [] := ⟨rfl, rfl, by decide⟩

/-- Claim C2 witness: the theorem applied at a concrete short line. -/
theorem C2_witness : rawField (js "AB") 5 9 = [] :=
  (C2_parse_never_raises (js "AB")).2.2.1 5 9 (by decide)

/-- Claim C3 (amended): for each of the three price fields, `parseLine` strips
`$` and `,` from the trimmed slice and attempts a `parseFloat`: a non-NaN
parse is stored as that number — except that a parsed value of `0` is
replaced by the empty string by the module parser's falsy `|| ""` default
(the `routes.ts` copy stores the number `0`), and a non-finite parse such as
`Infinity` is also stored as a number since the code only checks for NaN — and
a NaN parse retains the trimmed original string; no error is raised in any
case.  `"$1,234.56"` is stored as the number `1234.56` and `"N/A"` is
retained verbatim. -/
theorem C3_price_fields (line : JsStr) :
    (parseLine line).onPremisePrice = specPriceValue (rawField line 125 136) ∧
    (parseLine line).offPremisePrice = specPriceValue (rawField line 136 147) ∧
    (parseLine line).shelfPrice = specPriceValue (rawField line 147 158) ∧
    (parseLineRoutes line).onPremisePrice = specPriceValueRoutes (rawField line 125 136) ∧
    (parseLineRoutes line).offPremisePrice = specPriceValueRoutes (rawField line 136 147) ∧
    (parseLineRoutes line).shelfPrice = specPriceValueRoutes (rawField line 147 158) ∧
    specPriceValue (js "$1,234.56") = Value.num (NumV.fin (mkRat 123456 100)) ∧
    specPriceValue (js "N/A") = Value.str (js "N/A") ∧
    specPriceValue (js "Infinity") = Value.num (NumV.inf false) := by
  refine ⟨?_, ?_, ?_, ?_, ?_, ?_, by decide, by decide, by decide⟩ <;>
    simp [parseLine_eq, parseLineRoutes_eq]

/-- Claim C3 counterexample: a line whose SHELF PRICE slice is `"$0.00"`
parses to the valid finite number `0`, yet the module parser stores the empty
string, not the number. -/
theorem C3_counterexample :
    jsParseFloat (stripCurrency (rawField (List.replicate 147 ' ' ++ js "$0.00") 147 158))
      = NumV.fin 0 ∧
    (parseLine (List.replicate 147 ' ' ++ js "$0.00")).shelfPrice = Value.str [] ∧
    (parseLine (List.replicate 147 ' ' ++ js "$0.00")).shelfPrice ≠ Value.num (NumV.fin 0) := by
  refine ⟨by decide, by decide, by decide⟩

/-- Claim C4: for every input line, `parseLine` stores the EFFECTIVE DATE
field by reformatting the trimmed slice from `MMDDYYYY` to `YYYY-MM-DD`
exactly when it has 8 characters (characters 4-8 the year, 0-2 the month,
2-4 the day), and passes any other length through unchanged;
`"01152024"` becomes `"2024-01-15"`. -/
theorem C4_effective_date (line : JsStr) :
    (parseLine line).effectiveDate = Value.str (effectiveDateSpec (rawField line 186 194)) ∧
    (parseLineRoutes line).effectiveDate = Value.str (effectiveDateSpec (rawField line 186 194)) ∧
    (∀ v : JsStr, v.length = 8 →
        effectiveDateSpec v = v.drop 4 ++ js "-" ++ v.take 2 ++ js "-" ++ jsSlice v 2 4) ∧
    (∀ v : JsStr, v.length ≠ 8 → effectiveDateSpec v = v) ∧
    effectiveDateSpec (js "01152024") = js "2024-01-15" := by
  refine ⟨by simp [parseLine_eq], by simp [parseLineRoutes_eq], ?_, ?_, by decide⟩
  · intro v h8
    unfold effectiveDateSpec formatDate8
    rw [if_pos h8]
  · intro v h8
    unfold effectiveDateSpec
    rw [if_neg h8]

/-- Claim C4 witness: the theorem applied at concrete inputs discharging the
length hypotheses. -/
theorem C4_effective_date_witness :
    effectiveDateSpec (js "01152024")
      = (js "01152024").drop 4 ++ js "-" ++ (js "01152024").take 2 ++ js "-"
          ++ jsSlice (js "01152024") 2 4 ∧
    effectiveDateSpec (js "0115202") = js "0115202" :=
  ⟨(C4_effective_date (js "")).2.2.1 (js "01152024") (by decide),
   (C4_effective_date (js "")).2.2.2.1 (js "0115202") (by decide)⟩

/-- Addition of rationals through `mkRat` (kernel-reducible; `Rat.add` is
irreducible).  `ratAdd_eq` proves it is rational addition. -/
def ratAdd (a b : ℚ) : ℚ := mkRat (a.num * b.den + b.num * a.den) (a.den * b.den)

/-- Multiplication of rationals through `mkRat`.  `ratMul_eq` proves it is
rational multiplication. -/
def ratMul (a b : ℚ) : ℚ := mkRat (a.num * b.num) (a.den * b.den)

/-- Division of rationals through `mkRat` (0 when the divisor is 0, matching
the `0⁻¹ = 0` convention).  `ratDiv_eq` proves it is rational division. -/
def ratDiv (a b : ℚ) : ℚ :=
  mkRat (if 0 ≤ b.num then a.num * b.den else -(a.num * b.den)) (a.den * b.num.natAbs)

/-- `ratAdd` is rational addition. -/
theorem ratAdd_eq (a b : ℚ) : ratAdd a b = a + b := by
  unfold ratAdd
  have hda : ((a.den : ℚ)) ≠ 0 := by exact_mod_cast a.den_nz
  have hdb : ((b.den : ℚ)) ≠ 0 := by exact_mod_cast b.den_nz
  have ha : (a.num : ℚ) = a * a.den := (div_eq_iff hda).mp (Rat.num_div_den a)
  have hb : (b.num : ℚ) = b * b.den := (div_eq_iff hdb).mp (Rat.num_div_den b)
  rw [Rat.mkRat_eq_div]
  push_cast
  rw [ha, hb, div_eq_iff (mul_ne_zero hda hdb)]
  ring

/-- `ratMul` is rational multiplication. -/
theorem ratMul_eq (a b : ℚ) : ratMul a b = a * b := by
  unfold ratMul
  have hda : ((a.den : ℚ)) ≠ 0 := by exact_mod_cast a.den_nz
  have hdb : ((b.den : ℚ)) ≠ 0 := by exact_mod_cast b.den_nz
  have ha : (a.num : ℚ) = a * a.den := (div_eq_iff hda).mp (Rat.num_div_den a)
  have hb : (b.num : ℚ) = b * b.den := (div_eq_iff hdb).mp (Rat.num_div_den b)
  rw [Rat.mkRat_eq_div]
  push_cast
  rw [ha, hb, div_eq_iff (mul_ne_zero hda hdb)]
  ring

/-- `ratDiv` is rational division. -/
theorem ratDiv_eq (a b : ℚ) : ratDiv a b = a / b := by
  unfold ratDiv
  by_cases hb0 : b = 0
  · subst hb0
    simp [Rat.mkRat_eq_div]
  · have hda : ((a.den : ℚ)) ≠ 0 := by exact_mod_cast a.den_nz
    have hdb : ((b.den : ℚ)) ≠ 0 := by exact_mod_cast b.den_nz
    have ha : (a.num : ℚ) = a * a.den := (div_eq_iff hda).mp (Rat.num_div_den a)
    have hb : (b.num : ℚ) = b * b.den := (div_eq_iff hdb).mp (Rat.num_div_den b)
    have hbq : b ≠ 0 := hb0
    rcases le_or_lt 0 b.num with hpos | hneg
    · have habs : ((b.num.natAbs : ℕ) : ℚ) = (b.num : ℚ) := by
        have h1 : (b.num.natAbs : ℤ) = b.num := Int.natAbs_of_nonneg hpos
        have h2 := congrArg (fun z : ℤ => (z : ℚ)) h1
        simp only [Int.cast_natCast] at h2
        exact h2
      have hbnz : (b.num : ℚ) ≠ 0 := by
        exact_mod_cast Rat.num_ne_zero.mpr hb0
      rw [if_pos hpos, Rat.mkRat_eq_div]
      push_cast
      rw [habs, ha, hb, div_eq_div_iff (mul_ne_zero hda (mul_ne_zero hbq hdb)) hbq]
      ring
    · have habs : ((b.num.natAbs : ℕ) : ℚ) = -(b.num : ℚ) := by
        have h1 : ((b.num.natAbs : ℕ) : ℤ) = -b.num := Int.ofNat_natAbs_of_nonpos (le_of_lt hneg)
        have h2 := congrArg (fun z : ℤ => (z : ℚ)) h1
        simp only [Int.cast_natCast, Int.cast_neg] at h2
        exact h2
      rw [if_neg (not_le.mpr hneg), Rat.mkRat_eq_div]
      push_cast
      rw [habs, ha, hb]
      have hden : (a.den : ℚ) * -(b * b.den) ≠ 0 := by
        apply mul_ne_zero hda
        rw [neg_ne_zero]
        exact mul_ne_zero hbq hdb
      rw [div_eq_div_iff hden hbq]
      ring

/-- `String.prototype.split('\n')`. -/
def splitNl : JsStr → List JsStr
  | [] => [[]]
  | c :: rest =>
    let r := splitNl rest
    if c = '\n' then [] :: r
    else
      match r with
      | a :: as => (c :: a) :: as
      | [] => [[c]]

/-- `Set.prototype.add`: append the value unless already present. -/
def setAdd (l : List Value) (v : Value) : List Value :=
  if l.contains v then l else l ++ [v]

/-- JavaScript `+` on numbers. -/
def jsAdd : NumV → NumV → NumV
  | NumV.nan, _ => NumV.nan
  | _, NumV.nan => NumV.nan
  | NumV.fin a, NumV.fin b => NumV.fin (ratAdd a b)
  | NumV.inf s, NumV.fin _ => NumV.inf s
  | NumV.fin _, NumV.inf s => NumV.inf s
  | NumV.inf s, NumV.inf t => if s = t then NumV.inf s else NumV.nan

/-- JavaScript `/` on numbers (only the cases reachable here matter: the
denominator is a positive integer). -/
def jsDiv : NumV → NumV → NumV
  | NumV.nan, _ => NumV.nan
  | _, NumV.nan => NumV.nan
  | NumV.fin a, NumV.fin b =>
      if b = 0 then (if a = 0 then NumV.nan else NumV.inf (decide (a < 0)))
      else NumV.fin (ratDiv a b)
  | NumV.inf s, NumV.fin b => if b < 0 then NumV.inf (!s) else NumV.inf s
  | NumV.fin _, NumV.inf _ => NumV.fin 0
  | NumV.inf _, NumV.inf _ => NumV.nan

/-- Rounding to 2 decimal places, nearest with ties away from zero resolved
upward, as `toFixed(2)` specifies (pick the larger of two equally close
candidates). -/
def round2 (q : ℚ) : ℚ := mkRat (Rat.floor (ratAdd (ratMul q (mkRat 100 1)) (mkRat 1 2))) 100

/-- `Number(x.toFixed(2))`: round a finite number to 2 decimals; infinities
and NaN survive the string round-trip unchanged. -/
def jsToFixed2 : NumV → NumV
  | NumV.fin q => NumV.fin (round2 q)
  | NumV.inf b => NumV.inf b
  | NumV.nan => NumV.nan

/-- The summary object returned by `parseFileContent`. -/
structure FileResult where
  success : Bool
  totalRecords : Nat
  uniqueBrands : Nat
  uniqueVendors : Nat
  avgPrice : NumV
  records : List ParsedRecord
deriving DecidableEq

/-- One iteration of the `parseFileContent` loop: parse the line, push the
record, add non-empty brand and vendor names to their sets, and collect the
shelf price when it is a number (`typeof === 'number'`). -/
def loadStep (acc : List ParsedRecord × List Value × List Value × List NumV) (line : JsStr) :
    List ParsedRecord × List Value × List Value × List NumV :=
  if !(jsTrim line).isEmpty then
    let record := parseLine line
    (acc.1 ++ [record],
     (if record.brandName.truthy then setAdd acc.2.1 record.brandName else acc.2.1),
     (if record.vendorName.truthy then setAdd acc.2.2.1 record.vendorName else acc.2.2.1),
     (match record.shelfPrice with
      | Value.num n => acc.2.2.2 ++ [n]
      | Value.str _ => acc.2.2.2))
  else acc

/-- `parseFileContent` of the shared parser module: split on newlines, drop
blank lines, parse each line, and report counts and the average numeric
shelf price rounded to two decimals. -/
def parseFileContent (content : JsStr) : FileResult :=
  let lines := (splitNl content).filter (fun line => !(jsTrim line).isEmpty)
  let acc := lines.foldl loadStep ([], [], [], [])
  let prices := acc.2.2.2
  let avgPrice : NumV :=
    if 0 < prices.length then jsDiv (prices.foldl jsAdd (NumV.fin 0)) (NumV.fin (mkRat prices.length 1))
    else NumV.fin 0
  { success := true
    totalRecords := acc.1.length
    uniqueBrands := acc.2.1.length
    uniqueVendors := acc.2.2.1.length
    avgPrice := jsToFixed2 avgPrice
    records := acc.1 }

/-- The numeric shelf price of a parsed record, when it has one. -/
def shelfNumOf (r : ParsedRecord) : Option NumV :=
  match r.shelfPrice with
  | Value.num n => some n
  | Value.str _ => none

/-- The numeric subset of the parsed `shelfPrice` values of a file, in order:
the spec's "skip entries where shelfPrice is not numeric". -/
def numericShelfPrices (content : JsStr) : List NumV :=
  (((splitNl content).filter (fun l => !(jsTrim l).isEmpty)).map parseLine).filterMap shelfNumOf

/-- Is this number value finite? -/
def isFinNum : NumV → Bool
  | NumV.fin _ => true
  | _ => false

/-- Fold a rational accumulator over the finite members of a list of numbers. -/
def finAcc (q : ℚ) (l : List NumV) : ℚ :=
  l.foldl (fun a n => match n with | NumV.fin x => ratAdd a x | _ => a) q

/-- The sum of the finite members of a list of numbers. -/
def finSum (l : List NumV) : ℚ := finAcc 0 l

/-- The price accumulator of the load loop collects exactly the numeric shelf
prices of the parsed lines, in order. -/
theorem loadStep_prices (lines : List JsStr)
    (acc : List ParsedRecord × List Value × List Value × List NumV)
    (h : ∀ l ∈ lines, (jsTrim l).isEmpty = false) :
    (lines.foldl loadStep acc).2.2.2 = acc.2.2.2 ++ (lines.map parseLine).filterMap shelfNumOf := by
  induction lines generalizing acc with
  | nil => simp
  | cons l ls ih =>
    have hl : (jsTrim l).isEmpty = false := h l (List.mem_cons_self l ls)
    have hls : ∀ x ∈ ls, (jsTrim x).isEmpty = false := fun x hx => h x (List.mem_cons_of_mem l hx)
    rw [List.foldl_cons, ih _ hls]
    unfold loadStep
    rw [hl]
    rcases hs : (parseLine l).shelfPrice with n | s <;>
      simp [shelfNumOf, hs, List.filterMap_cons]

/-- Summing number values through `jsAdd` from a finite start over an all-finite
list is rational addition. -/
theorem foldl_jsAdd_fin (l : List NumV) (q : ℚ) (h : l.all isFinNum = true) :
    l.foldl jsAdd (NumV.fin q) = NumV.fin (finAcc q l) := by
  induction l generalizing q with
  | nil => rfl
  | cons n ns ih =>
    rcases n with x | b
    · rw [List.foldl_cons]
      have hns : ns.all isFinNum = true := by
        rw [List.all_cons] at h
        exact (Bool.and_eq_true _ _).mp h |>.2
      rw [show jsAdd (NumV.fin q) (NumV.fin x) = NumV.fin (ratAdd q x) from rfl, ih _ hns]
      rfl
    · rw [List.all_cons] at h
      simp [isFinNum] at h
    · rw [List.all_cons] at h
      simp [isFinNum] at h

/-- Claim C9: for every input file content, the dataset loader's reported
average shelf price equals the arithmetic mean of exactly those parsed
`shelfPrice` values that are numeric (string values are skipped), rounded to
2 decimal places, and equals 0 when no record has a numeric shelf price.
(The hypothesis that the numeric values are finite excludes only a literal
`Infinity` price slice.) -/
theorem C9_avg_shelf_price (content : JsStr)
    (hfin : (numericShelfPrices content).all isFinNum = true) :
    (parseFileContent content).avgPrice =
      (if numericShelfPrices content = [] then NumV.fin 0
       else NumV.fin (round2 (ratDiv (finSum (numericShelfPrices content))
                                     (mkRat (numericShelfPrices content).length 1)))) := by
  have hlines : ∀ l ∈ (splitNl content).filter (fun line => !(jsTrim line).isEmpty),
      (jsTrim l).isEmpty = false := by
    intro l hl
    simpa using List.of_mem_filter hl
  have hP : (((splitNl content).filter (fun line => !(jsTrim line).isEmpty)).foldl
      loadStep ([], [], [], [])).2.2.2 = numericShelfPrices content := by
    rw [loadStep_prices _ _ hlines]
    simp [numericShelfPrices]
  show jsToFixed2 _ = _
  rw [hP]
  by_cases hne : numericShelfPrices content = []
  · rw [if_pos hne, hne]
    show jsToFixed2 (if 0 < (0 : Nat) then _ else NumV.fin 0) = NumV.fin 0
    rw [if_neg (by exact Nat.lt_irrefl 0)]
    show NumV.fin (round2 0) = NumV.fin 0
    have : round2 0 = 0 := by decide
    rw [this]
  · have hlen : 0 < (numericShelfPrices content).length := List.length_pos.mpr hne
    rw [if_neg hne]
    show jsToFixed2 (if 0 < (numericShelfPrices content).length then _ else _) = _
    rw [if_pos hlen, foldl_jsAdd_fin _ 0 hfin]
    have hd : (mkRat (numericShelfPrices content).length 1 : ℚ) ≠ 0 := by
      intro hc
      rw [Rat.mkRat_eq_zero one_ne_zero] at hc
      have hz : (numericShelfPrices content).length = 0 := by exact_mod_cast hc
      exact Nat.pos_iff_ne_zero.mp hlen hz
    simp [jsDiv, hd, hne, jsToFixed2, finSum]

/-- Claim C9 witness: the theorem applied to a one-line file whose SHELF PRICE
slice is `5.00`. -/
theorem C9_avg_shelf_price_witness :
    numericShelfPrices (List.replicate 147 ' ' ++ js "5.00") = [NumV.fin 5] ∧
    (parseFileContent (List.replicate 147 ' ' ++ js "5.00")).avgPrice = NumV.fin 5 := by
  refine ⟨by decide, ?_⟩
  have h := C9_avg_shelf_price (List.replicate 147 ' ' ++ js "5.00") (by decide)
  rw [h]
  decide

/-- `Map.prototype.get` on an insertion-ordered association list. -/
def mget {α : Type} (l : List (Nat × α)) (k : Nat) : Option α :=
  (l.find? (fun e => e.1 == k)).map Prod.snd

/-- `Map.prototype.set`: replace in place when the key exists, append otherwise. -/
def mset {α : Type} (l : List (Nat × α)) (k : Nat) (v : α) : List (Nat × α) :=
  if l.any (fun e => e.1 == k) then l.map (fun e => if e.1 == k then (k, v) else e)
  else l ++ [(k, v)]

/-- `Map.prototype.delete`: whether the key was present, and the remaining
entries. -/
def mdel {α : Type} (l : List (Nat × α)) (k : Nat) : Bool × List (Nat × α) :=
  (l.any (fun e => e.1 == k), l.filter (fun e => !(e.1 == k)))

/-- `Array.from(map.values())`. -/
def mvalues {α : Type} (l : List (Nat × α)) : List α := l.map Prod.snd

/-- A stored catalog record (the `LiquorRecord` of the schema): `id` plus the
nullable columns produced by `createLiquorRecord`'s `|| null` defaults.
UUID ids are modelled as natural numbers. -/
structure LiquorRecord where
  id : Nat
  liquorCode : Value
  brandName : Value
  adaNumber : Option Value
  adaName : Option Value
  vendorName : Option Value
  proof : Option Value
  bottleSize : Option Value
  packSize : Option Value
  onPremisePrice : Option Value
  offPremisePrice : Option Value
  shelfPrice : Option Value
  upcCode1 : Option JsStr
  upcCode2 : Option JsStr
  effectiveDate : Option Value
deriving DecidableEq

/-- `x || null` on a field value: falsy values become `null`. -/
def valueToNullable (v : Value) : Option Value := if v.truthy then some v else none

/-- `x || null` on a UPC column.  The parser never price-coerces the UPC
byte ranges, so the inserted value is always a string; the numeric case is
unreachable. -/
def strToNullable (v : Value) : Option JsStr :=
  match v with
  | Value.str s => if s.isEmpty then none else some s
  | Value.num _ => none

/-- A recorded scan event (`ScannedItem`). -/
structure ScannedItem where
  id : Nat
  sessionId : Nat
  liquorRecordId : Option Nat
  scannedBarcode : JsStr
  scannedAt : JsStr
  quantity : Nat
deriving DecidableEq

/-- A scanning session. -/
structure Session where
  id : Nat
  name : JsStr
  createdAt : Nat
  updatedAt : Nat
  itemCount : Nat
  isActive : Nat
deriving DecidableEq

/-- The `MemStorage` state: the four maps and the active-session pointer.
`nextId` models the `randomUUID` fresh-id source. -/
structure MemStorage where
  liquorRecords : List (Nat × LiquorRecord)
  scannedItems : List (Nat × ScannedItem)
  sessions : List (Nat × Session)
  activeSessionId : Option Nat
  nextId : Nat
deriving DecidableEq

/-- `MemStorage.createLiquorRecord`: assign a fresh id, apply the `|| null`
defaults, and store the record under its id. -/
def createLiquorRecord (ins : ParsedRecord) (st : MemStorage) : LiquorRecord × MemStorage :=
  let id := st.nextId
  let record : LiquorRecord :=
    { id := id
      liquorCode := ins.liquorCode
      brandName := ins.brandName
      adaNumber := valueToNullable ins.adaNumber
      adaName := valueToNullable ins.adaName
      vendorName := valueToNullable ins.vendorName
      proof := valueToNullable ins.proof
      bottleSize := valueToNullable ins.bottleSize
      packSize := valueToNullable ins.packSize
      onPremisePrice := valueToNullable ins.onPremisePrice
      offPremisePrice := valueToNullable ins.offPremisePrice
      shelfPrice := valueToNullable ins.shelfPrice
      upcCode1 := strToNullable ins.upcCode1
      upcCode2 := strToNullable ins.upcCode2
      effectiveDate := valueToNullable ins.effectiveDate }
  (record, { st with liquorRecords := mset st.liquorRecords id record, nextId := id + 1 })

/-- `MemStorage.getLiquorRecords`. -/
def getLiquorRecords (st : MemStorage) : List LiquorRecord := mvalues st.liquorRecords

/-- `MemStorage.clearLiquorRecords`. -/
def clearLiquorRecords (st : MemStorage) : MemStorage := { st with liquorRecords := [] }

/-- The `normalizeUpc` helper of `findLiquorByBarcode`: `null` and the empty
string normalize to the empty string; otherwise strip leading zeros, and an
all-zero code becomes `"0"`. -/
def normalizeUpc : Option JsStr → JsStr
  | none => []
  | some s =>
    if s.isEmpty then []
    else
      let t := s.dropWhile (fun c => c == '0')
      if t.isEmpty then js "0" else t

/-- The per-record predicate of `findLiquorByBarcode`: exact match on either
UPC column first, then leading-zero-normalized match. -/
def matchesBarcode (barcode : JsStr) (record : LiquorRecord) : Bool :=
  if record.upcCode1 == some barcode || record.upcCode2 == some barcode then true
  else
    normalizeUpc record.upcCode1 == normalizeUpc (some barcode)
      || normalizeUpc record.upcCode2 == normalizeUpc (some barcode)

/-- `MemStorage.findLiquorByBarcode`: one `find` pass over the map values. -/
def findLiquorByBarcode (barcode : JsStr) (st : MemStorage) : Option LiquorRecord :=
  (mvalues st.liquorRecords).find? (matchesBarcode barcode)

/-- The insert shape accepted by `addScannedItem`. -/
structure InsertScannedItem where
  sessionId : Nat
  liquorRecordId : Option Nat
  scannedBarcode : JsStr
  scannedAt : JsStr
  quantity : Option Nat

/-- `MemStorage.addScannedItem`: fresh id, `quantity || 1` (record ids are
non-empty UUID strings, so `liquorRecordId || null` is the identity on
non-null input). -/
def addScannedItem (ins : InsertScannedItem) (st : MemStorage) : ScannedItem × MemStorage :=
  let id := st.nextId
  let item : ScannedItem :=
    { id := id
      sessionId := ins.sessionId
      liquorRecordId := ins.liquorRecordId
      scannedBarcode := ins.scannedBarcode
      scannedAt := ins.scannedAt
      quantity := match ins.quantity with
                  | none => 1
                  | some q => if q = 0 then 1 else q }
  (item, { st with scannedItems := mset st.scannedItems id item, nextId := id + 1 })

/-- `MemStorage.getScannedItems`: the values with the given session id. -/
def getScannedItems (sid : Nat) (st : MemStorage) : List ScannedItem :=
  (mvalues st.scannedItems).filter (fun i => i.sessionId == sid)

/-- `MemStorage.clearScannedItems`: collect the keys of the entries belonging
to the session, then delete each collected key. -/
def clearScannedItems (sid : Nat) (st : MemStorage) : MemStorage :=
  let itemsToDelete := (st.scannedItems.filter (fun e => e.2.sessionId == sid)).map Prod.fst
  { st with scannedItems :=
      itemsToDelete.foldl (fun l k => l.filter (fun e => !(e.1 == k))) st.scannedItems }

/-- `MemStorage.deleteScannedItem`. -/
def deleteScannedItem (itemId : Nat) (st : MemStorage) : Bool × MemStorage :=
  let r := mdel st.scannedItems itemId
  (r.1, { st with scannedItems := r.2 })

/-- `MemStorage.updateScannedItemPrice`: look the item up by id and its linked
record up by `liquorRecordId`; on success store a shelf-price-overridden copy
of the record under a fresh map key (the copied record keeps its original
`id` field, exactly as the spread `{ ...liquorRecord, shelfPrice }` does) and
repoint the item; otherwise report `false` and change nothing. -/
def updateScannedItemPrice (itemId : Nat) (newPrice : ℚ) (st : MemStorage) :
    Bool × MemStorage :=
  match mget st.scannedItems itemId with
  | none => (false, st)
  | some item =>
    let linked : Option LiquorRecord :=
      match item.liquorRecordId with
      | some rid => mget st.liquorRecords rid
      | none => none
    match linked with
    | none => (false, st)
    | some liquorRecord =>
      let updatedRecord : LiquorRecord :=
        { liquorRecord with shelfPrice := some (Value.num (NumV.fin newPrice)) }
      let newRecordId := st.nextId
      let st1 : MemStorage :=
        { st with liquorRecords := mset st.liquorRecords newRecordId updatedRecord,
                  nextId := st.nextId + 1 }
      let updatedItem : ScannedItem := { item with liquorRecordId := some newRecordId }
      (true, { st1 with scannedItems := mset st1.scannedItems itemId updatedItem })

/-- `MemStorage.getSession`. -/
def getSession (sid : Nat) (st : MemStorage) : Option Session := mget st.sessions sid

/-- `MemStorage.deleteSession`: delete the session, clear the active pointer
if it pointed here, clear the session's scanned items, and return whether the
session existed. -/
def deleteSession (sid : Nat) (st : MemStorage) : Bool × MemStorage :=
  let r := mdel st.sessions sid
  let st1 : MemStorage :=
    { st with sessions := r.2,
              activeSessionId :=
                if r.1 && (st.activeSessionId == some sid) then none
                else st.activeSessionId }
  (r.1, clearScannedItems sid st1)

/-- `MemStorage.getActiveSession`. -/
def getActiveSession (st : MemStorage) : Option Session :=
  match st.activeSessionId with
  | some id => mget st.sessions id
  | none => none

/-- `MemStorage.setActiveSession`: only repoint when the session exists;
silently do nothing otherwise. -/
def setActiveSession (sid : Nat) (st : MemStorage) : MemStorage :=
  if st.sessions.any (fun e => e.1 == sid) then { st with activeSessionId := some sid }
  else st

/-- The observable outcome of the `/api/scan-barcode` handler. -/
inductive ScanResponse where
  | badRequest
  | statusCheck
  | found (r : LiquorRecord)
  | notFound
deriving DecidableEq

/-- The `/api/scan-barcode` handler: reject an empty barcode, answer the
`test-check-only` status probe without scanning, then look the barcode up;
on a match with a provided session id, record one scan event carrying the
scanned barcode verbatim and quantity 1. -/
def scanBarcode (barcode : JsStr) (sessionId : Option Nat) (now : JsStr) (st : MemStorage) :
    ScanResponse × MemStorage :=
  if barcode.isEmpty then (ScanResponse.badRequest, st)
  else if barcode = js "test-check-only" then (ScanResponse.statusCheck, st)
  else
    match findLiquorByBarcode barcode st with
    | some matchedProduct =>
      match sessionId with
      | some sid =>
        let r := addScannedItem
          { sessionId := sid
            liquorRecordId := some matchedProduct.id
            scannedBarcode := barcode
            scannedAt := now
            quantity := some 1 } st
        (ScanResponse.found matchedProduct, r.2)
      | none => (ScanResponse.found matchedProduct, st)
    | none => (ScanResponse.notFound, st)

/-- The `/api/process-file` catalog replacement: clear, then insert the parsed
records one at a time (each insert is a separate awaited storage operation). -/
def replaceCatalog (records : List ParsedRecord) (st : MemStorage) : MemStorage :=
  records.foldl (fun s r => (createLiquorRecord r s).2) (clearLiquorRecords st)

/-- The result reported by session activation. -/
inductive ActivateResult where
  | ok (s : Session)
  | notFound
deriving DecidableEq

/-- Modelled from the spec: the `POST /api/sessions/:id/activate` route handler
is not among the provided sources (only its client caller and the storage
methods are); per the spec it fails with `NotFoundError` when the id is
unknown and otherwise marks the session active via the storage layer. -/
def activateSessionRoute (sid : Nat) (st : MemStorage) : ActivateResult × MemStorage :=
  match getSession sid st with
  | none => (ActivateResult.notFound, st)
  | some s => (ActivateResult.ok s, setActiveSession sid st)

/-- `find?` returns `some a` exactly when the list splits as a prefix of
non-matches, then `a` as the first match. -/
theorem find?_eq_some_split {α : Type} (p : α → Bool) (l : List α) (a : α) :
    l.find? p = some a ↔
      ∃ l1 l2, l = l1 ++ a :: l2 ∧ p a = true ∧ ∀ x ∈ l1, p x = false := by
  induction l with
  | nil => simp
  | cons b bs ih =>
    by_cases hb : p b = true
    · rw [List.find?_cons_of_pos _ hb]
      constructor
      · intro h
        injection h with h
        subst h
        exact ⟨[], bs, rfl, hb, by simp⟩
      · rintro ⟨l1, l2, hl, hpa, hall⟩
        cases l1 with
        | nil =>
          simp only [List.nil_append, List.cons.injEq] at hl
          rw [hl.1]
        | cons c cs =>
          simp only [List.cons_append, List.cons.injEq] at hl
          have hc : p c = false := hall c (List.mem_cons_self c cs)
          rw [← hl.1] at hc
          rw [hb] at hc
          cases hc
    · have hbf : p b = false := by
        cases hpb : p b
        · rfl
        · exact absurd hpb hb
      rw [List.find?_cons_of_neg _ (by rw [hbf]; intro hc; cases hc)]
      rw [ih]
      constructor
      · rintro ⟨l1, l2, hl, hpa, hall⟩
        refine ⟨b :: l1, l2, by rw [hl]; rfl, hpa, ?_⟩
        intro x hx
        rcases List.mem_cons.mp hx with hx1 | hx2
        · rw [hx1, hbf]
        · exact hall x hx2
      · rintro ⟨l1, l2, hl, hpa, hall⟩
        cases l1 with
        | nil =>
          simp only [List.nil_append, List.cons.injEq] at hl
          rw [← hl.1] at hpa
          rw [hbf] at hpa
          cases hpa
        | cons c cs =>
          simp only [List.cons_append, List.cons.injEq] at hl
          refine ⟨cs, l2, hl.2, hpa, ?_⟩
          intro x hx
          exact hall x (List.mem_cons_of_mem c hx)

/-- A record used in concrete states: blank except for the id and UPC columns. -/
def sampleRecord (id : Nat) (u1 u2 : Option JsStr) : LiquorRecord :=
  { id := id, liquorCode := emptyStr, brandName := emptyStr, adaNumber := none
    adaName := none, vendorName := none, proof := none, bottleSize := none
    packSize := none, onPremisePrice := none, offPremisePrice := none
    shelfPrice := none, upcCode1 := u1, upcCode2 := u2, effectiveDate := none }

/-- A storage state holding the given catalog entries and nothing else. -/
def sampleState (recs : List (Nat × LiquorRecord)) : MemStorage :=
  { liquorRecords := recs, scannedItems := [], sessions := [], activeSessionId := none
    nextId := 100 }

/-- Claim C1 (amended): `findLiquorByBarcode` scans the catalog once in map
insertion order, each record tested for an exact UPC match first and then a
leading-zero-normalized match, and returns the first record passing either
test — an exact match elsewhere in the catalog takes no precedence over an
earlier normalized-only match.  A lookup of `"012345"` does match a record
whose `upcCode1` is `"00012345"` and never one whose `upcCode1` is
`"912345"`. -/
theorem C1_find_by_barcode (barcode : JsStr) (st : MemStorage) (r : LiquorRecord) :
    (findLiquorByBarcode barcode st = some r ↔
      ∃ l1 l2, mvalues st.liquorRecords = l1 ++ r :: l2 ∧
        matchesBarcode barcode r = true ∧
        ∀ x ∈ l1, matchesBarcode barcode x = false) ∧
    (∀ rec : LiquorRecord, rec.upcCode1 = some (js "00012345") →
      matchesBarcode (js "012345") rec = true) ∧
    (∀ rec : LiquorRecord, rec.upcCode1 = some (js "912345") → rec.upcCode2 = none →
      matchesBarcode (js "012345") rec = false) := by
  refine ⟨find?_eq_some_split _ _ _, ?_, ?_⟩
  · intro rec h1
    unfold matchesBarcode
    rw [h1]
    by_cases hc : (some (js "00012345") == some (js "012345")
        || rec.upcCode2 == some (js "012345")) = true
    · rw [if_pos hc]
    · rw [if_neg hc]
      rw [show normalizeUpc (some (js "00012345")) = js "12345" from by decide]
      rw [show normalizeUpc (some (js "012345")) = js "12345" from by decide]
      simp
  · intro rec h1 h2
    unfold matchesBarcode
    rw [h1, h2]
    decide

/-- Claim C1 counterexample: with a catalog holding first a record whose
`upcCode1` is `"12345"` and then one whose `upcCode1` is `"012345"`, looking
up `"012345"` returns the first record — a normalized-only match — even
though the second record matches exactly. -/
theorem C1_counterexample :
    findLiquorByBarcode (js "012345")
        (sampleState [(1, sampleRecord 1 (some (js "12345")) none),
                      (2, sampleRecord 2 (some (js "012345")) none)])
      = some (sampleRecord 1 (some (js "12345")) none) ∧
    (sampleRecord 2 (some (js "012345")) none).upcCode1 = some (js "012345") ∧
    (sampleRecord 1 (some (js "12345")) none).upcCode1 ≠ some (js "012345") ∧
    (sampleRecord 1 (some (js "12345")) none).upcCode2 ≠ some (js "012345") := by
  refine ⟨by decide, by decide, by decide, by decide⟩

/-- Claim C1 witness: the theorem's example clauses applied at concrete
records. -/
theorem C1_find_by_barcode_witness :
    matchesBarcode (js "012345") (sampleRecord 3 (some (js "00012345")) none) = true ∧
    matchesBarcode (js "012345") (sampleRecord 4 (some (js "912345")) none) = false :=
  ⟨(C1_find_by_barcode (js "012345") (sampleState []) (sampleRecord 3 (some (js "00012345")) none)).2.1
      (sampleRecord 3 (some (js "00012345")) none) rfl,
   (C1_find_by_barcode (js "012345") (sampleState []) (sampleRecord 4 (some (js "912345")) none)).2.2
      (sampleRecord 4 (some (js "912345")) none) rfl rfl⟩

/-- A parsed insert record that is blank except for `upcCode1`. -/
def c7insert (u : String) : ParsedRecord :=
  { liquorCode := emptyStr, brandName := emptyStr, adaNumber := emptyStr
    adaName := emptyStr, vendorName := emptyStr, proof := emptyStr
    bottleSize := emptyStr, packSize := emptyStr, onPremisePrice := emptyStr
    offPremisePrice := emptyStr, shelfPrice := emptyStr
    upcCode1 := Value.str (js u), upcCode2 := emptyStr, effectiveDate := emptyStr }

/-- Claim C7: the `/api/process-file` replacement is `clearLiquorRecords`
followed by one `createLiquorRecord` per record, each a separate awaited
storage operation.  A lookup that runs between those steps observes an empty
or partially installed catalog: here the barcode resolves both before the
replacement and after it completes, but resolves to nothing at the
intermediate states after the clear and after the first insert. -/
theorem C7_replace_observable_partial :
    (findLiquorByBarcode (js "00067890")
        (replaceCatalog [c7insert "00012345", c7insert "00067890"] (sampleState []))
      ≠ none) ∧
    (findLiquorByBarcode (js "00067890")
        (replaceCatalog [c7insert "00012345", c7insert "00067890"]
          (replaceCatalog [c7insert "00012345", c7insert "00067890"] (sampleState [])))
      ≠ none) ∧
    findLiquorByBarcode (js "00067890")
        (clearLiquorRecords
          (replaceCatalog [c7insert "00012345", c7insert "00067890"] (sampleState [])))
      = none ∧
    findLiquorByBarcode (js "00067890")
        ((createLiquorRecord (c7insert "00012345")
          (clearLiquorRecords
            (replaceCatalog [c7insert "00012345", c7insert "00067890"] (sampleState [])))).2)
      = none := by
  refine ⟨by decide, by decide, by decide, by decide⟩

/-- Setting a key absent from the association list appends the entry. -/
theorem mset_fresh {α : Type} (l : List (Nat × α)) (k : Nat) (v : α)
    (h : ∀ e ∈ l, e.1 ≠ k) : mset l k v = l ++ [(k, v)] := by
  unfold mset
  rw [if_neg]
  intro hc
  rcases List.any_eq_true.mp hc with ⟨e, he, hek⟩
  exact h e he (by simpa using hek)

/-- `find?` over an append when the left part already finds a value. -/
theorem find?_append_some {α : Type} (p : α → Bool) (l1 l2 : List α) (a : α)
    (h : l1.find? p = some a) : (l1 ++ l2).find? p = some a := by
  induction l1 with
  | nil => simp at h
  | cons b bs ih =>
    cases hpb : p b
    · have hnb : ¬p b = true := by rw [hpb]; intro hc; cases hc
      rw [List.find?_cons_of_neg _ hnb] at h
      rw [List.cons_append, List.find?_cons_of_neg _ hnb]
      exact ih h
    · rw [List.find?_cons_of_pos _ hpb] at h
      rw [List.cons_append, List.find?_cons_of_pos _ hpb]
      exact h

/-- A successful `mget` survives appending entries on the right. -/
theorem mget_append_of_some {α : Type} (l1 l2 : List (Nat × α)) (k : Nat) (x : α)
    (h : mget l1 k = some x) : mget (l1 ++ l2) k = some x := by
  unfold mget at h ⊢
  rcases hf : l1.find? (fun e => e.1 == k) with _ | e
  · rw [hf] at h; cases h
  · rw [find?_append_some _ _ l2 _ hf]
    rw [hf] at h
    exact h

/-- A successful `mget` exhibits an entry with the key. -/
theorem any_of_mget_some {α : Type} (l : List (Nat × α)) (k : Nat) (x : α)
    (h : mget l k = some x) : l.any (fun e => e.1 == k) = true := by
  unfold mget at h
  rcases hf : l.find? (fun e => e.1 == k) with _ | e
  · rw [hf] at h; cases h
  · have hp := List.find?_some hf
    exact List.any_eq_true.mpr ⟨e, List.mem_of_find?_eq_some hf, hp⟩

/-- Folding key-deletions over a list of keys filters out every entry whose
key occurs among them. -/
theorem foldl_filter_keys {α : Type} (K : List Nat) (L : List (Nat × α)) :
    K.foldl (fun l k => l.filter (fun e => !(e.1 == k))) L
      = L.filter (fun e => !(K.any (fun k2 => e.1 == k2))) := by
  induction K generalizing L with
  | nil => simp
  | cons k ks ih =>
    rw [List.foldl_cons, ih, List.filter_filter]
    congr 1
    funext e
    simp only [List.any_cons, Bool.not_or]
    rw [Bool.and_comm]

/-- With no duplicate keys, an entry of the list is determined by its key. -/
theorem key_unique {α : Type} (L : List (Nat × α)) (h : (L.map Prod.fst).Nodup)
    (e f : Nat × α) (he : e ∈ L) (hf : f ∈ L) (hk : e.1 = f.1) : e = f := by
  induction L with
  | nil => cases he
  | cons a as ih =>
    rw [List.map_cons, List.nodup_cons] at h
    rcases List.mem_cons.mp he with he1 | he2 <;> rcases List.mem_cons.mp hf with hf1 | hf2
    · rw [he1, hf1]
    · exfalso
      apply h.1
      rw [he1] at hk
      rw [hk]
      exact List.mem_map.mpr ⟨f, hf2, rfl⟩
    · exfalso
      apply h.1
      rw [hf1] at hk
      rw [← hk]
      exact List.mem_map.mpr ⟨e, he2, rfl⟩
    · exact ih h.2 he2 hf2

/-- With no duplicate item keys, `clearScannedItems` removes exactly the
entries of the given session. -/
theorem clearScannedItems_eq (sid : Nat) (st : MemStorage)
    (hnd : (st.scannedItems.map Prod.fst).Nodup) :
    (clearScannedItems sid st).scannedItems
      = st.scannedItems.filter (fun e => !(e.2.sessionId == sid)) := by
  have h1 : (clearScannedItems sid st).scannedItems
      = ((st.scannedItems.filter (fun e => e.2.sessionId == sid)).map Prod.fst).foldl
          (fun l k => l.filter (fun e => !(e.1 == k))) st.scannedItems := rfl
  rw [h1, foldl_filter_keys]
  apply List.filter_congr
  intro e he
  congr 1
  cases hs : (e.2.sessionId == sid)
  · -- not in the session: its key is never collected
    rw [List.any_eq_false]
    intro k2 hk2
    rcases List.mem_map.mp hk2 with ⟨f, hfmem, hfk⟩
    have hf := List.mem_filter.mp hfmem
    intro hc
    have hek : e.1 = k2 := by simpa using hc
    have hef : e = f := key_unique _ hnd e f he hf.1 (by rw [hek, hfk])
    rw [hef] at hs
    rw [hf.2] at hs
    cases hs
  · -- in the session: its own key is collected
    rw [List.any_eq_true]
    refine ⟨e.1, List.mem_map.mpr ⟨e, List.mem_filter.mpr ⟨he, hs⟩, rfl⟩, by simp⟩

/-- Claim C10: `deleteSession` returns `true` exactly when a session with the
id existed, and in every case — including a failed delete — it removes every
scanned item whose `sessionId` equals the deleted id. -/
theorem C10_delete_session (st : MemStorage) (sid : Nat)
    (hnd : (st.scannedItems.map Prod.fst).Nodup) :
    ((deleteSession sid st).1 = true ↔ ∃ e ∈ st.sessions, e.1 = sid) ∧
    (deleteSession sid st).2.scannedItems
      = st.scannedItems.filter (fun e => !(e.2.sessionId == sid)) ∧
    (deleteSession sid st).2.sessions = st.sessions.filter (fun e => !(e.1 == sid)) := by
  refine ⟨?_, ?_, ?_⟩
  · show (st.sessions.any (fun e => e.1 == sid) = true) ↔ _
    rw [List.any_eq_true]
    constructor
    · rintro ⟨e, he, hk⟩
      exact ⟨e, he, by simpa using hk⟩
    · rintro ⟨e, he, hk⟩
      exact ⟨e, he, by simpa using hk⟩
  · have h1 : (deleteSession sid st).2.scannedItems
        = (clearScannedItems sid
            { st with sessions := (mdel st.sessions sid).2,
                      activeSessionId :=
                        if (mdel st.sessions sid).1 && (st.activeSessionId == some sid)
                        then none else st.activeSessionId }).scannedItems := rfl
    rw [h1, clearScannedItems_eq]
    exact hnd
  · rfl

/-- Claim C10 witness: deleting a nonexistent session still clears the items
carrying that session id while returning `false`. -/
theorem C10_delete_session_witness :
    (deleteSession 9 { liquorRecords := [], sessions := [], activeSessionId := none
                       nextId := 50
                       scannedItems := [(5, { id := 5, sessionId := 9, liquorRecordId := none
                                              scannedBarcode := [], scannedAt := []
                                              quantity := 1 })] }).2.scannedItems = [] ∧
    (deleteSession 9 { liquorRecords := [], sessions := [], activeSessionId := none
                       nextId := 50
                       scannedItems := [(5, { id := 5, sessionId := 9, liquorRecordId := none
                                              scannedBarcode := [], scannedAt := []
                                              quantity := 1 })] }).1 = false := by
  constructor
  · rw [(C10_delete_session _ 9 (by decide)).2.1]
    decide
  · decide

/-- Claim C8: activating an unknown session id is reported as a failed
operation with the state unchanged, while activating an existing session's id
makes that session the one returned by `getActiveSession`. -/
theorem C8_activate_session (st : MemStorage) (sid : Nat) :
    (getSession sid st = none → activateSessionRoute sid st = (ActivateResult.notFound, st)) ∧
    (∀ s : Session, getSession sid st = some s →
      (activateSessionRoute sid st).1 = ActivateResult.ok s ∧
      (activateSessionRoute sid st).2.activeSessionId = some sid ∧
      getActiveSession (activateSessionRoute sid st).2 = some s) := by
  constructor
  · intro h
    unfold activateSessionRoute
    rw [h]
  · intro s h
    unfold activateSessionRoute
    rw [h]
    have hany : st.sessions.any (fun e => e.1 == sid) = true := any_of_mget_some _ _ _ h
    unfold setActiveSession
    rw [if_pos hany]
    refine ⟨rfl, rfl, ?_⟩
    exact h

/-- Claim C8 witness: the theorem applied to a one-session store, activating
first an unknown id and then the existing one. -/
theorem C8_activate_session_witness :
    activateSessionRoute 9
        { liquorRecords := [], scannedItems := [], activeSessionId := none, nextId := 50
          sessions := [(7, { id := 7, name := [], createdAt := 0, updatedAt := 0
                             itemCount := 0, isActive := 1 })] }
      = (ActivateResult.notFound,
         { liquorRecords := [], scannedItems := [], activeSessionId := none, nextId := 50
           sessions := [(7, { id := 7, name := [], createdAt := 0, updatedAt := 0
                              itemCount := 0, isActive := 1 })] }) ∧
    getActiveSession
        (activateSessionRoute 7
          { liquorRecords := [], scannedItems := [], activeSessionId := none, nextId := 50
            sessions := [(7, { id := 7, name := [], createdAt := 0, updatedAt := 0
                               itemCount := 0, isActive := 1 })] }).2
      = some { id := 7, name := [], createdAt := 0, updatedAt := 0
               itemCount := 0, isActive := 1 } := by
  constructor
  · exact (C8_activate_session _ 9).1 (by decide)
  · exact ((C8_activate_session _ 7).2 _ (by decide)).2.2

/-- Claim C6: `updateScannedItemPrice` fails (`false`, no change) when the item
or its linked catalog record is missing; on success it returns `true`, stores
a shelf-price-overridden copy of the linked record under a fresh map key,
leaves the original record retrievable unchanged under its old key, repoints
only the updated item, and touches nothing else. -/
theorem C6_update_price (st : MemStorage) (itemId : Nat) (p : ℚ) :
    (mget st.scannedItems itemId = none → updateScannedItemPrice itemId p st = (false, st)) ∧
    (∀ item : ScannedItem, mget st.scannedItems itemId = some item →
      item.liquorRecordId = none → updateScannedItemPrice itemId p st = (false, st)) ∧
    (∀ item : ScannedItem, ∀ rid : Nat,
      mget st.scannedItems itemId = some item → item.liquorRecordId = some rid →
      mget st.liquorRecords rid = none → updateScannedItemPrice itemId p st = (false, st)) ∧
    (∀ item : ScannedItem, ∀ rid : Nat, ∀ r : LiquorRecord,
      mget st.scannedItems itemId = some item → item.liquorRecordId = some rid →
      mget st.liquorRecords rid = some r →
      (∀ e ∈ st.liquorRecords, e.1 ≠ st.nextId) →
      (updateScannedItemPrice itemId p st).1 = true ∧
      (updateScannedItemPrice itemId p st).2.liquorRecords
        = st.liquorRecords
            ++ [(st.nextId, { r with shelfPrice := some (Value.num (NumV.fin p)) })] ∧
      mget (updateScannedItemPrice itemId p st).2.liquorRecords rid = some r ∧
      (updateScannedItemPrice itemId p st).2.scannedItems
        = st.scannedItems.map
            (fun e => if e.1 == itemId
                      then (itemId, { item with liquorRecordId := some st.nextId })
                      else e) ∧
      (updateScannedItemPrice itemId p st).2.sessions = st.sessions ∧
      (updateScannedItemPrice itemId p st).2.activeSessionId = st.activeSessionId) := by
  refine ⟨?_, ?_, ?_, ?_⟩
  · intro h
    unfold updateScannedItemPrice
    rw [h]
  · intro item hitem hnone
    unfold updateScannedItemPrice
    rw [hitem]
    simp only [hnone]
  · intro item rid hitem hrid hrec
    unfold updateScannedItemPrice
    rw [hitem]
    simp only [hrid, hrec]
  · intro item rid r hitem hrid hrec hfresh
    have hany : st.scannedItems.any (fun e => e.1 == itemId) = true :=
      any_of_mget_some _ _ _ hitem
    have hrecs : mset st.liquorRecords st.nextId
        { r with shelfPrice := some (Value.num (NumV.fin p)) }
        = st.liquorRecords
            ++ [(st.nextId, { r with shelfPrice := some (Value.num (NumV.fin p)) })] :=
      mset_fresh _ _ _ hfresh
    have hbody : updateScannedItemPrice itemId p st
        = (true,
           { liquorRecords := mset st.liquorRecords st.nextId
               { r with shelfPrice := some (Value.num (NumV.fin p)) }
             nextId := st.nextId + 1
             sessions := st.sessions
             activeSessionId := st.activeSessionId
             scannedItems := mset st.scannedItems itemId
               { item with liquorRecordId := some st.nextId } }) := by
      unfold updateScannedItemPrice
      rw [hitem]
      simp only [hrid, hrec]
    rw [hbody]
    refine ⟨rfl, hrecs, ?_, ?_, rfl, rfl⟩
    · show mget (mset st.liquorRecords st.nextId _) rid = some r
      rw [hrecs]
      exact mget_append_of_some _ _ _ _ hrec
    · show mset st.scannedItems itemId { item with liquorRecordId := some st.nextId } = _
      unfold mset
      rw [if_pos hany]

/-- Claim C6 witness: the success case of the theorem applied to a one-record,
one-item store. -/
theorem C6_update_price_witness :
    (updateScannedItemPrice 2 7
        { liquorRecords := [(1, sampleRecord 1 (some (js "111")) none)]
          scannedItems := [(2, { id := 2, sessionId := 4, liquorRecordId := some 1
                                 scannedBarcode := [], scannedAt := [], quantity := 1 })]
          sessions := [], activeSessionId := none, nextId := 3 }).1 = true ∧
    mget (updateScannedItemPrice 2 7
        { liquorRecords := [(1, sampleRecord 1 (some (js "111")) none)]
          scannedItems := [(2, { id := 2, sessionId := 4, liquorRecordId := some 1
                                 scannedBarcode := [], scannedAt := [], quantity := 1 })]
          sessions := [], activeSessionId := none, nextId := 3 }).2.liquorRecords 1
      = some (sampleRecord 1 (some (js "111")) none) := by
  have h := (C6_update_price
      { liquorRecords := [(1, sampleRecord 1 (some (js "111")) none)]
        scannedItems := [(2, { id := 2, sessionId := 4, liquorRecordId := some 1
                               scannedBarcode := [], scannedAt := [], quantity := 1 })]
        sessions := [], activeSessionId := none, nextId := 3 } 2 7).2.2.2
      { id := 2, sessionId := 4, liquorRecordId := some 1
        scannedBarcode := [], scannedAt := [], quantity := 1 }
      1 (sampleRecord 1 (some (js "111")) none)
      (by decide) rfl (by decide) (by decide)
  exact ⟨h.1, h.2.2.1⟩

/-- Dropping a prefix never lengthens a list. -/
theorem length_dropWhile_le {α : Type} (p : α → Bool) (l : List α) :
    (l.dropWhile p).length ≤ l.length := by
  induction l with
  | nil => simp
  | cons a as ih =>
    rw [List.dropWhile_cons]
    by_cases h : p a = true
    · rw [if_pos h]
      exact le_trans ih (Nat.le_succ _)
    · rw [if_neg h]

/-- The UPC columns of a catalog record hold at most 14 characters: the parser
extracts them from 14-byte ranges and trimming never lengthens them.  Every
record the application stores satisfies this. -/
def upcLenOk (r : LiquorRecord) : Bool :=
  (match r.upcCode1 with
   | none => true
   | some s => decide (s.length ≤ 14)) &&
  (match r.upcCode2 with
   | none => true
   | some s => decide (s.length ≤ 14))

/-- A normalized UPC of a short code stays short. -/
theorem normalizeUpc_short (u : Option JsStr) (h : ∀ s, u = some s → s.length ≤ 14) :
    (normalizeUpc u).length ≤ 14 := by
  rcases u with _ | s
  · simp [normalizeUpc]
  · have hs := h s rfl
    show ((if s.isEmpty = true then []
           else
             let t := s.dropWhile (fun c => c == '0')
             if t.isEmpty = true then js "0" else t) : JsStr).length ≤ 14
    by_cases he : s.isEmpty = true
    · rw [if_pos he]
      simp
    · rw [if_neg he]
      by_cases ht : (s.dropWhile (fun c => c == '0')).isEmpty = true
      · rw [if_pos ht]
        decide
      · rw [if_neg ht]
        exact le_trans (length_dropWhile_le _ _) hs

/-- A record with short UPC columns never matches the 15-character status
probe `test-check-only`, exactly or normalized. -/
theorem matches_probe_false (r : LiquorRecord) (h : upcLenOk r = true) :
    matchesBarcode (js "test-check-only") r = false := by
  have hparts := (Bool.and_eq_true _ _).mp h
  have h1 : ∀ s, r.upcCode1 = some s → s.length ≤ 14 := by
    intro s hs
    have := hparts.1
    rw [hs] at this
    exact of_decide_eq_true this
  have h2 : ∀ s, r.upcCode2 = some s → s.length ≤ 14 := by
    intro s hs
    have := hparts.2
    rw [hs] at this
    exact of_decide_eq_true this
  have e1 : (r.upcCode1 == some (js "test-check-only")) = false := by
    rcases hu : r.upcCode1 with _ | s
    · rfl
    · cases hc : (some s == some (js "test-check-only"))
      · rfl
      · exfalso
        have hseq : s = js "test-check-only" := by simpa using hc
        have hle := h1 s hu
        rw [hseq] at hle
        exact absurd hle (by decide)
  have e2 : (r.upcCode2 == some (js "test-check-only")) = false := by
    rcases hu : r.upcCode2 with _ | s
    · rfl
    · cases hc : (some s == some (js "test-check-only"))
      · rfl
      · exfalso
        have hseq : s = js "test-check-only" := by simpa using hc
        have hle := h2 s hu
        rw [hseq] at hle
        exact absurd hle (by decide)
  have n1 : (normalizeUpc r.upcCode1 == normalizeUpc (some (js "test-check-only"))) = false := by
    have hlen := normalizeUpc_short r.upcCode1 h1
    cases hc : (normalizeUpc r.upcCode1 == normalizeUpc (some (js "test-check-only")))
    · rfl
    · exfalso
      have heq : normalizeUpc r.upcCode1 = normalizeUpc (some (js "test-check-only")) := by
        simpa using hc
      rw [heq] at hlen
      exact absurd hlen (by decide)
  have n2 : (normalizeUpc r.upcCode2 == normalizeUpc (some (js "test-check-only"))) = false := by
    have hlen := normalizeUpc_short r.upcCode2 h2
    cases hc : (normalizeUpc r.upcCode2 == normalizeUpc (some (js "test-check-only")))
    · rfl
    · exfalso
      have heq : normalizeUpc r.upcCode2 = normalizeUpc (some (js "test-check-only")) := by
        simpa using hc
      rw [heq] at hlen
      exact absurd hlen (by decide)
  unfold matchesBarcode
  rw [e1, e2, n1, n2]
  simp

/-- The status probe resolves to no record in any catalog of parsed records. -/
theorem find_probe_none (st : MemStorage) (hinv : ∀ e ∈ st.liquorRecords, upcLenOk e.2 = true) :
    findLiquorByBarcode (js "test-check-only") st = none := by
  unfold findLiquorByBarcode
  rw [List.find?_eq_none]
  intro x hx
  rcases List.mem_map.mp hx with ⟨e, he, hex⟩
  subst hex
  rw [matches_probe_false e.2 (hinv e he)]
  intro hc
  cases hc

/-- Claim C5: for every scan request with a non-empty barcode and a provided
session id, against a catalog of parsed records (UPC columns of at most 14
characters) and a store whose item keys predate `nextId`: when the lookup
matches, exactly one scan event is appended carrying the scanned barcode
verbatim, the matched record's id and quantity 1, with the catalog and
sessions untouched; when the lookup matches nothing — including the
`test-check-only` status probe, which can match no such record — the state
is left entirely unchanged, no matter how often the scan is repeated. -/
theorem C5_scan_barcode (st : MemStorage) (b : JsStr) (sid : Nat) (now : JsStr)
    (hb : b ≠ [])
    (hinv : ∀ e ∈ st.liquorRecords, upcLenOk e.2 = true)
    (hfresh : ∀ e ∈ st.scannedItems, e.1 ≠ st.nextId) :
    match findLiquorByBarcode b st with
    | some r =>
        (scanBarcode b (some sid) now st).2.scannedItems
          = st.scannedItems
              ++ [(st.nextId,
                   { id := st.nextId, sessionId := sid, liquorRecordId := some r.id
                     scannedBarcode := b, scannedAt := now, quantity := 1 })] ∧
        (scanBarcode b (some sid) now st).2.liquorRecords = st.liquorRecords ∧
        (scanBarcode b (some sid) now st).2.sessions = st.sessions
    | none => (scanBarcode b (some sid) now st).2 = st := by
  have hbe : b.isEmpty = false := by
    cases b
    · exact absurd rfl hb
    · rfl
  by_cases htco : b = js "test-check-only"
  · rw [htco] at hbe ⊢
    rw [find_probe_none st hinv]
    show (scanBarcode (js "test-check-only") (some sid) now st).2 = st
    unfold scanBarcode
    simp
    rw [if_neg (by decide)]
  · rcases hf : findLiquorByBarcode b st with _ | r
    · show (scanBarcode b (some sid) now st).2 = st
      unfold scanBarcode
      simp only [hbe]
      rw [if_neg (by simp), if_neg htco, hf]
    · show _ ∧ _ ∧ _
      have hadd : (scanBarcode b (some sid) now st).2
          = { st with
              scannedItems := mset st.scannedItems st.nextId
                { id := st.nextId, sessionId := sid, liquorRecordId := some r.id
                  scannedBarcode := b, scannedAt := now, quantity := 1 }
              nextId := st.nextId + 1 } := by
        unfold scanBarcode
        simp only [hbe]
        rw [if_neg (by simp), if_neg htco, hf]
        rfl
      rw [hadd]
      refine ⟨?_, rfl, rfl⟩
      show mset st.scannedItems st.nextId _ = _
      rw [mset_fresh _ _ _ hfresh]

/-- Claim C5 witness: the theorem applied to a one-record catalog, scanning
the zero-stripped form of its UPC. -/
theorem C5_scan_barcode_witness :
    (scanBarcode (js "012345") (some 4) []
        (sampleState [(1, sampleRecord 1 (some (js "00012345")) none)])).2.scannedItems
      = [(100, { id := 100, sessionId := 4, liquorRecordId := some 1
                 scannedBarcode := js "012345", scannedAt := [], quantity := 1 })] := by
  have h := C5_scan_barcode (sampleState [(1, sampleRecord 1 (some (js "00012345")) none)])
      (js "012345") 4 [] (by decide) (by decide) (by decide)
  rw [show findLiquorByBarcode (js "012345")
        (sampleState [(1, sampleRecord 1 (some (js "00012345")) none)])
      = some (sampleRecord 1 (some (js "00012345")) none) from by decide] at h
  rw [h.1]
  rfl

/-- Trimming never lengthens a string. -/
theorem jsTrim_length_le (l : JsStr) : (jsTrim l).length ≤ l.length := by
  unfold jsTrim
  calc ((l.dropWhile jsWs).reverse.dropWhile jsWs).reverse.length
      = ((l.dropWhile jsWs).reverse.dropWhile jsWs).length := List.length_reverse _
    _ ≤ (l.dropWhile jsWs).reverse.length := length_dropWhile_le _ _
    _ = (l.dropWhile jsWs).length := List.length_reverse _
    _ ≤ l.length := length_dropWhile_le _ _

/-- A slice is no longer than its byte range. -/
theorem jsSlice_length_le (l : JsStr) (s e : Nat) : (jsSlice l s e).length ≤ e - s := by
  unfold jsSlice
  rw [List.length_drop, List.length_take]
  omega

/-- Every record created from a parsed line satisfies the UPC-length
invariant assumed by the scan theorem: both UPC columns come from 14-byte
ranges. -/
theorem parsed_upcLenOk (line : JsStr) (st : MemStorage) :
    upcLenOk (createLiquorRecord (parseLine line) st).1 = true := by
  have hproj1 : (createLiquorRecord (parseLine line) st).1.upcCode1
      = strToNullable (parseLine line).upcCode1 := rfl
  have hproj2 : (createLiquorRecord (parseLine line) st).1.upcCode2
      = strToNullable (parseLine line).upcCode2 := rfl
  have hl1 : (rawField line 158 172).length ≤ 14 :=
    le_trans (jsTrim_length_le _) (jsSlice_length_le line 158 172)
  have hl2 : (rawField line 172 186).length ≤ 14 :=
    le_trans (jsTrim_length_le _) (jsSlice_length_le line 172 186)
  unfold upcLenOk
  rw [hproj1, hproj2, parseLine_eq]
  show ((match strToNullable (Value.str (rawField line 158 172)) with
         | none => true
         | some s => decide (s.length ≤ 14)) &&
        (match strToNullable (Value.str (rawField line 172 186)) with
         | none => true
         | some s => decide (s.length ≤ 14))) = true
  unfold strToNullable
  by_cases h1 : (rawField line 158 172).isEmpty = true <;>
    by_cases h2 : (rawField line 172 186).isEmpty = true <;>
      simp [h1, h2, hl1, hl2]
